import Mathlib

/-!
Verification development for the Bank-Nifty dispersion monitor.

The Python source is shallowly embedded: dictionaries become association
lists (with last-binding-wins lookup, matching Python dict assignment),
floats become exact rationals, a caught exception that makes a function
return an empty dict or re-raise becomes an explicit empty list or an
Option, and network fetch outcomes become environment parameters.
-/

namespace Dispersion

/-- Round-half-to-even on rationals, embedding the Python builtin round()
used throughout calculation_service.py.  A rational q has q.num and a
positive denominator q.den; f is the floor of q and r the remainder. -/
def pyRound (q : ℚ) : ℤ :=
  let f : ℤ := Int.fdiv q.num q.den
  let r : ℤ := q.num - f * (q.den : ℤ)
  if 2 * r < (q.den : ℤ) then f
  else if (q.den : ℤ) < 2 * r then f + 1
  else if f % 2 = 0 then f else f + 1

/-- Last matching binding of a key in an association list.  Python dict
writes with a repeated key overwrite, so the binding written last wins. -/
def dfind {κ α : Type} [DecidableEq κ] (l : List (κ × α)) (k : κ) :
    Option (κ × α) :=
  match l with
  | [] => none
  | p :: rest =>
    match dfind rest k with
    | some q => some q
    | none => if p.1 = k then some p else none

/-- Dictionary lookup: the value of the last binding of the key. -/
def dget {κ α : Type} [DecidableEq κ] (l : List (κ × α)) (k : κ) : Option α :=
  (dfind l k).map (fun p => p.2)

theorem dfind_append_single {κ α : Type} [DecidableEq κ]
    (l : List (κ × α)) (k0 : κ) (v0 : α) (k : κ) :
    dfind (l ++ [(k0, v0)]) k
      = if k0 = k then some (k0, v0) else dfind l k := by
  induction l with
  | nil =>
    simp only [List.nil_append, dfind]
  | cons p rest ih =>
    by_cases h : k0 = k
    · subst h
      simp [List.cons_append, dfind, ih]
    · simp [List.cons_append, dfind, ih, h]

theorem dfind_map {κ α β : Type} [DecidableEq κ]
    (l : List (κ × α)) (g : κ × α → β) (k : κ) :
    dfind (l.map (fun p => (p.1, g p))) k
      = (dfind l k).map (fun p => (p.1, g p)) := by
  induction l with
  | nil => rfl
  | cons p rest ih =>
    simp only [List.map_cons, dfind, ih]
    cases h : dfind rest k with
    | some q => rfl
    | none =>
      by_cases hk : p.1 = k
      · simp [hk]
      · simp [hk]

theorem dfind_eq_none_of_not_mem_keys {κ α : Type} [DecidableEq κ]
    (l : List (κ × α)) (k : κ) (h : k ∉ l.map Prod.fst) :
    dfind l k = none := by
  induction l with
  | nil => rfl
  | cons p rest ih =>
    simp only [List.map_cons, List.mem_cons, not_or] at h
    simp only [dfind, ih h.2]
    have : p.1 ≠ k := fun hc => h.1 hc.symm
    simp [this]

theorem dfind_of_mem_nodup {κ α : Type} [DecidableEq κ]
    (l : List (κ × α)) (k : κ) (v : α)
    (hmem : (k, v) ∈ l) (hnd : (l.map Prod.fst).Nodup) :
    dfind l k = some (k, v) := by
  induction l with
  | nil => cases hmem
  | cons p rest ih =>
    simp only [List.map_cons, List.nodup_cons] at hnd
    rcases List.mem_cons.mp hmem with h | h
    · have hp : p = (k, v) := h.symm
      subst hp
      have hrest : dfind rest k = none :=
        dfind_eq_none_of_not_mem_keys rest k hnd.1
      simp [dfind, hrest]
    · simp [dfind, ih h hnd.2]

theorem dget_of_mem_nodup {κ α : Type} [DecidableEq κ]
    (l : List (κ × α)) (k : κ) (v : α)
    (hmem : (k, v) ∈ l) (hnd : (l.map Prod.fst).Nodup) :
    dget l k = some v := by
  simp [dget, dfind_of_mem_nodup l k v hmem hnd]

theorem dget_eq_none_of_not_mem_keys {κ α : Type} [DecidableEq κ]
    (l : List (κ × α)) (k : κ) (h : k ∉ l.map Prod.fst) :
    dget l k = none := by
  simp [dget, dfind_eq_none_of_not_mem_keys l k h]

/-! ### Data model

The banknifty and constituent dicts produced by data_service.py.  Missing
dict keys read through .get(key, 0) in the source, so a missing numeric
field is embedded as the value 0; the error key becomes a Boolean flag. -/

/-- The index-leg dict built by _get_banknifty_data (and, with the two OTM
strike keys filled in, by _get_otm_market_data). -/
structure BnData where
  spot_price : ℚ
  atm_strike : ℚ
  call_strike : ℚ
  put_strike : ℚ
  straddle_premium : ℚ
  deriving DecidableEq

/-- A per-constituent dict built by _get_constituents_data or
_get_otm_market_data.  An error-tagged entry has error = true and keeps
only weight and lot_size, all other fields reading as 0. -/
structure CData where
  error : Bool
  spot_price : ℚ
  atm_strike : ℚ
  call_strike : ℚ
  put_strike : ℚ
  straddle_premium : ℚ
  weight : ℚ
  lot_size : ℚ
  deriving DecidableEq

/-- The market_data snapshot dict: banknifty = none embeds the empty dict
returned when _get_banknifty_data caught an exception; the timestamp is a
rational clock value. -/
structure MarketData where
  banknifty : Option BnData
  constituents : List (String × CData)
  timestamp : ℚ
  deriving DecidableEq

/-- Config.REFERENCE_PORTFOLIO_VALUE from settings.py. -/
def referencePortfolioValue : ℚ := 60000000

/-- BANKNIFTY_CONFIG lot_size from banknifty_constituents.py. -/
def bankniftyLotSize : ℚ := 15

/-- DataService.cache_duration (seconds). -/
def cacheDuration : ℚ := 2

/-! ### LotNormalizer: _calculate_normalized_lots -/

/-- The lots assigned to one valid constituent: lot_value = spot * lot
size, target_value = reference * weight / 100, lots = max(1,
round(target_value / lot_value)). -/
def lotsFor (d : CData) : ℤ :=
  max 1 (pyRound ((referencePortfolioValue * (d.weight / 100)) /
    (d.spot_price * d.lot_size)))

/-- The index lots: max(1, round(reference / (spot * lot size))) when the
spot is positive, otherwise the fallback of 1. -/
def bnLotsFor (bn : BnData) : ℤ :=
  if 0 < bn.spot_price then
    max 1 (pyRound (referencePortfolioValue /
      (bn.spot_price * bankniftyLotSize)))
  else 1

/-- Embeds CalculationService._calculate_normalized_lots.  A non-error
constituent whose spot_price * lot_size is 0 makes the Python loop divide
by zero; the surrounding except block catches it and returns an empty
dict, which the else branch of the ite embeds.  The second guard mirrors
the index branch, which divides only when banknifty spot is positive.
The scaling_factor the source computes is never read afterwards and is
omitted.  The final banknifty binding is appended last, as in the source,
and the last-binding-wins dget gives it Python dict overwrite semantics. -/
def calcNormalizedLots (cd : List (String × CData)) (bn : BnData) :
    List (String × ℤ) :=
  let valid := cd.filter (fun p => !p.2.error)
  if (∀ p ∈ valid, p.2.spot_price * p.2.lot_size ≠ 0) ∧
      (0 < bn.spot_price → bn.spot_price * bankniftyLotSize ≠ 0) then
    valid.map (fun p => (p.1, lotsFor p.2)) ++ [("banknifty", bnLotsFor bn)]
  else []

/-! ### DispersionCalculator: positions, portfolio value, net premium -/

/-- One entry of the positions dict built by
_calculate_constituents_positions. -/
structure Position where
  premium : ℚ
  lots : ℤ
  straddle_price : ℚ
  lot_size : ℚ
  weight : ℚ
  strike : ℚ
  spot_price : ℚ
  deriving DecidableEq

/-- The dict returned by _calculate_constituents_positions. -/
structure ConstituentsPositions where
  positions : List (String × Position)
  total_premium : ℚ
  deriving DecidableEq

/-- The dict returned by _calculate_portfolio_value. -/
structure PortfolioValue where
  total_value : ℚ
  breakdown : List (String × ℚ)
  target_value : ℚ
  deriving DecidableEq

/-- The condition under which the constituents loops keep an entry: the
source skips entries with an error key or a symbol absent from
normalized_lots. -/
def keepPos (nl : List (String × ℤ)) (p : String × CData) : Bool :=
  !p.2.error && (dget nl p.1).isSome

/-- The premium one kept constituent contributes:
straddle_premium * lot_size * lots, with lots read through
normalized_lots.get(symbol, 0). -/
def premOf (nl : List (String × ℤ)) (p : String × CData) : ℚ :=
  p.2.straddle_premium * p.2.lot_size * (((dget nl p.1).getD 0 : ℤ) : ℚ)

/-- The positions entry stored for one kept constituent. -/
def posOf (nl : List (String × ℤ)) (p : String × CData) : Position :=
  { premium := premOf nl p
    lots := (dget nl p.1).getD 0
    straddle_price := p.2.straddle_premium
    lot_size := p.2.lot_size
    weight := p.2.weight
    strike := p.2.atm_strike
    spot_price := p.2.spot_price }

/-- Embeds _calculate_constituents_positions: a fold over the constituent
dict accumulating the positions dict and the running total premium. -/
def calcConstituentsPositions (cd : List (String × CData))
    (nl : List (String × ℤ)) : ConstituentsPositions :=
  cd.foldl (fun acc p =>
    if keepPos nl p then
      { positions := acc.positions ++ [(p.1, posOf nl p)]
        total_premium := acc.total_premium + premOf nl p }
    else acc)
    { positions := [], total_premium := 0 }

/-- The portfolio value one kept constituent contributes:
spot_price * lot_size * lots. -/
def valOf (nl : List (String × ℤ)) (p : String × CData) : ℚ :=
  p.2.spot_price * p.2.lot_size * (((dget nl p.1).getD 0 : ℤ) : ℚ)

/-- Embeds _calculate_portfolio_value: a fold accumulating the breakdown
dict and the running total value, with the fixed reference target. -/
def calcPortfolioValue (cd : List (String × CData))
    (nl : List (String × ℤ)) : PortfolioValue :=
  cd.foldl (fun acc p =>
    if keepPos nl p then
      { total_value := acc.total_value + valOf nl p
        breakdown := acc.breakdown ++ [(p.1, valOf nl p)]
        target_value := acc.target_value }
    else acc)
    { total_value := 0, breakdown := [], target_value := referencePortfolioValue }

/-- Embeds _calculate_banknifty_position:
straddle_premium * lot_size * lots for the long index straddle. -/
def calcBankniftyPosition (bn : BnData) (lots : ℤ) : ℚ :=
  bn.straddle_premium * bankniftyLotSize * (lots : ℚ)

/-- The result dict of calculate_dispersion_premium (and of
_calculate_otm_level_dispersion, whose extra note and strike keys carry no
numeric content beyond these fields). -/
structure DispResult where
  net_premium : ℚ
  banknifty_premium : ℚ
  banknifty_lots : ℤ
  banknifty_strike : ℚ
  banknifty_straddle : ℚ
  banknifty_spot : ℚ
  constituents_positions : ConstituentsPositions
  normalized_lots : List (String × ℤ)
  portfolio_value : PortfolioValue
  timestamp : ℚ
  deriving DecidableEq

/-- Embeds calculate_dispersion_premium.  none embeds a raised exception:
either the explicit ValueError when the banknifty dict or the constituents
dict is empty, or the KeyError at normalized_lots of banknifty when
_calculate_normalized_lots returned an empty dict, both re-raised by the
outer except block. -/
def calculate_dispersion_premium (md : MarketData) : Option DispResult :=
  match md.banknifty with
  | none => none
  | some bn =>
    if md.constituents.isEmpty then none
    else
      let nl := calcNormalizedLots md.constituents bn
      match dget nl "banknifty" with
      | none => none
      | some bnLots =>
        let bnPrem := calcBankniftyPosition bn bnLots
        let cp := calcConstituentsPositions md.constituents nl
        some
          { net_premium := bnPrem - cp.total_premium
            banknifty_premium := bnPrem
            banknifty_lots := bnLots
            banknifty_strike := bn.atm_strike
            banknifty_straddle := bn.straddle_premium
            banknifty_spot := bn.spot_price
            constituents_positions := cp
            normalized_lots := nl
            portfolio_value := calcPortfolioValue md.constituents nl
            timestamp := md.timestamp }

/-! ### OTM levels -/

/-- Embeds _calculate_atm_strike: round to the nearest 100 above a spot of
10000 (the index), otherwise to the nearest 50. -/
def calcAtmStrike (spot : ℚ) : ℚ :=
  if 10000 < spot then (pyRound (spot / 100) : ℚ) * 100
  else (pyRound (spot / 50) : ℚ) * 50

/-- Embeds _get_otm_market_data.  The option-premium fetch
(_get_otm_option_data: live API or the randomized synthetic fallback) is
an environment parameter prem taking symbol, strike, option type and
level to the last traded price. -/
def getOtmMarketData (md : MarketData)
    (prem : String → ℚ → String → ℕ → ℚ) (level : ℕ) : MarketData :=
  let bnOpt : Option BnData :=
    match md.banknifty with
    | none => none
    | some bn =>
      if 0 < bn.spot_price then
        let atm := calcAtmStrike bn.spot_price
        let cs := atm + (level : ℚ) * 100
        let ps := atm - (level : ℚ) * 100
        some
          { spot_price := bn.spot_price
            atm_strike := atm
            call_strike := cs
            put_strike := ps
            straddle_premium :=
              prem "BANKNIFTY" cs "CE" level + prem "BANKNIFTY" ps "PE" level }
      else none
  let consts :=
    (md.constituents.filter
        (fun p => !p.2.error && decide (0 < p.2.spot_price))).map
      (fun p =>
        let atm := calcAtmStrike p.2.spot_price
        let cs := atm + (level : ℚ) * 50
        let ps := atm - (level : ℚ) * 50
        (p.1,
          ({ error := false
             spot_price := p.2.spot_price
             atm_strike := atm
             call_strike := cs
             put_strike := ps
             straddle_premium := prem p.1 cs "CE" level + prem p.1 ps "PE" level
             weight := p.2.weight
             lot_size := p.2.lot_size } : CData)))
  { banknifty := bnOpt, constituents := consts, timestamp := md.timestamp }

/-- Embeds _calculate_otm_level_dispersion, which reruns the ATM pipeline
on the OTM market data.  none embeds the insufficient-data stub dict
returned when either leg is empty and the error stub returned when the
caught KeyError ends the computation. -/
def calcOtmLevelDispersion (omd : MarketData) (_level : ℕ) : Option DispResult :=
  match omd.banknifty with
  | none => none
  | some bn =>
    if omd.constituents.isEmpty then none
    else
      let nl := calcNormalizedLots omd.constituents bn
      match dget nl "banknifty" with
      | none => none
      | some bnLots =>
        let bnPrem := calcBankniftyPosition bn bnLots
        let cp := calcConstituentsPositions omd.constituents nl
        some
          { net_premium := bnPrem - cp.total_premium
            banknifty_premium := bnPrem
            banknifty_lots := bnLots
            banknifty_strike := bn.atm_strike
            banknifty_straddle := bn.straddle_premium
            banknifty_spot := bn.spot_price
            constituents_positions := cp
            normalized_lots := nl
            portfolio_value := calcPortfolioValue omd.constituents nl
            timestamp := omd.timestamp }

/-- Embeds calculate_otm_dispersion: one dispersion result per level from
1 to levels (the dict key otm_level_L is represented by the number L).  A
non-positive level count gives an empty range, as in Python. -/
def calculate_otm_dispersion (md : MarketData)
    (prem : String → ℚ → String → ℕ → ℚ) (levels : ℤ) :
    List (ℕ × Option DispResult) :=
  (List.range' 1 levels.toNat).map
    (fun l => (l, calcOtmLevelDispersion (getOtmMarketData md prem l) l))

/-- Embeds the level clamp of the otm-levels handler in app.py: the query
parameter defaults to 1 and any request above 3 is reduced to 3. -/
def clampOtmLevels (n : Option ℤ) : ℤ :=
  let l := n.getD 1
  if 3 < l then 3 else l

/-! ### DataService: fetch environment, snapshot construction, cache -/

/-- One row of BANKNIFTY_CONSTITUENTS: static weight and lot size. -/
structure Instrument where
  weight : ℚ
  lot_size : ℚ
  deriving DecidableEq

/-- Outcomes of the network fetches a refresh cycle performs.  bnFetch is
the body of _get_banknifty_data (spot, call ltp, put ltp); none means the
body raised.  constFetch is the per-symbol fetch of _get_constituents_data;
none means that symbol's fetch raised. -/
structure FetchEnv where
  bnFetch : Option (ℚ × ℚ × ℚ)
  constFetch : String → Option (ℚ × ℚ × ℚ)

/-- Embeds _get_banknifty_data: a successful fetch yields the index dict
with the ATM strike derived from the spot and the straddle premium the sum
of the two legs; any exception is caught and the empty dict (none) is
returned. -/
def getBankniftyData (env : FetchEnv) : Option BnData :=
  match env.bnFetch with
  | none => none
  | some (spot, c, p) =>
    some
      { spot_price := spot
        atm_strike := calcAtmStrike spot
        call_strike := 0
        put_strike := 0
        straddle_premium := c + p }

/-- Embeds _get_constituents_data: every symbol of the static table gets
an entry; a failed fetch yields an error-tagged entry that keeps the
static weight and lot size. -/
def getConstituentsData (tbl : List (String × Instrument)) (env : FetchEnv) :
    List (String × CData) :=
  tbl.map (fun t =>
    match env.constFetch t.1 with
    | some (spot, c, p) =>
      (t.1,
        { error := false
          spot_price := spot
          atm_strike := calcAtmStrike spot
          call_strike := 0
          put_strike := 0
          straddle_premium := c + p
          weight := t.2.weight
          lot_size := t.2.lot_size })
    | none =>
      (t.1,
        { error := true
          spot_price := 0
          atm_strike := 0
          call_strike := 0
          put_strike := 0
          straddle_premium := 0
          weight := t.2.weight
          lot_size := t.2.lot_size }))

/-- The one-slot snapshot cache: value and capture timestamp. -/
structure CacheState where
  snapshot : Option (MarketData × ℚ)
  deriving DecidableEq

/-- The cached-read condition shared by get_live_market_data and
get_live_market_data_cached: the stored snapshot is returned only when
now - capturedAt < maxAge. -/
def cacheGet (c : CacheState) (now maxAge : ℚ) : Option MarketData :=
  match c.snapshot with
  | none => none
  | some (md, t0) => if now - t0 < maxAge then some md else none

/-- The fresh snapshot one full refresh builds: index leg, all
constituents, current timestamp. -/
def buildSnapshot (tbl : List (String × Instrument)) (env : FetchEnv)
    (now : ℚ) : MarketData :=
  { banknifty := getBankniftyData env
    constituents := getConstituentsData tbl env
    timestamp := now }

/-- Embeds get_live_market_data: under use_cache a fresh-enough cached
snapshot is returned as is; otherwise a full refresh runs and the result
is published to the cache only when use_cache is set. -/
def get_live_market_data (tbl : List (String × Instrument)) (env : FetchEnv)
    (c : CacheState) (now : ℚ) (use_cache : Bool) :
    MarketData × CacheState :=
  match (if use_cache then cacheGet c now cacheDuration else none) with
  | some md => (md, c)
  | none =>
    let md := buildSnapshot tbl env now
    (md, if use_cache then { snapshot := some (md, now) } else c)

/-- Embeds get_live_market_data_cached: return the cached snapshot when
fresh, otherwise fetch fresh data with use_cache set to False. -/
def get_live_market_data_cached (tbl : List (String × Instrument))
    (env : FetchEnv) (c : CacheState) (now : ℚ) : MarketData × CacheState :=
  match cacheGet c now cacheDuration with
  | some md => (md, c)
  | none => get_live_market_data tbl env c now false

/-! ### Helper lemmas -/

theorem eq_of_mem_nodup_keys {κ α : Type} [DecidableEq κ]
    (l : List (κ × α)) (hnd : (l.map Prod.fst).Nodup)
    (p q : κ × α) (hp : p ∈ l) (hq : q ∈ l) (hk : p.1 = q.1) : p = q := by
  induction l with
  | nil => cases hp
  | cons a rest ih =>
    simp only [List.map_cons, List.nodup_cons] at hnd
    rcases List.mem_cons.mp hp with hp1 | hp1 <;>
      rcases List.mem_cons.mp hq with hq1 | hq1
    · rw [hp1, hq1]
    · exfalso
      apply hnd.1
      have hm : q.1 ∈ List.map Prod.fst rest := List.mem_map_of_mem Prod.fst hq1
      rw [← hk, hp1] at hm
      exact hm
    · exfalso
      apply hnd.1
      have hm : p.1 ∈ List.map Prod.fst rest := List.mem_map_of_mem Prod.fst hp1
      rw [hk, hq1] at hm
      exact hm
    · exact ih hnd.2 hp1 hq1

theorem filter_keys_nodup {κ α : Type} (cd : List (κ × α))
    (q : κ × α → Bool) (hnd : (cd.map Prod.fst).Nodup) :
    ((cd.filter q).map Prod.fst).Nodup :=
  hnd.sublist (List.Sublist.map Prod.fst (List.filter_sublist cd))

/-- Lookup in a filtered-and-tabulated dict: an entry passing the filter
is found with its tabulated value. -/
theorem dget_filter_map {κ α β : Type} [DecidableEq κ]
    (l : List (κ × α)) (q : κ × α → Bool) (g : κ × α → β) (k : κ) (v : α)
    (hmem : (k, v) ∈ l) (hq : q (k, v) = true)
    (hnd : (l.map Prod.fst).Nodup) :
    dget ((l.filter q).map (fun p => (p.1, g p))) k = some (g (k, v)) := by
  have hmemf : (k, v) ∈ l.filter q := List.mem_filter.mpr ⟨hmem, hq⟩
  have hndf := filter_keys_nodup l q hnd
  rw [dget, dfind_map _ g k, dfind_of_mem_nodup _ k v hmemf hndf]
  rfl

/-- Under the no-zero-lot-value hypothesis the try block of
_calculate_normalized_lots completes and the allocation holds one binding
per valid constituent, with the banknifty binding appended last. -/
theorem calcNormalizedLots_eq_of_valid (cd : List (String × CData))
    (bn : BnData)
    (hvalid : ∀ p ∈ cd, p.2.error = false →
      p.2.spot_price * p.2.lot_size ≠ 0) :
    calcNormalizedLots cd bn =
      (cd.filter (fun p => !p.2.error)).map (fun p => (p.1, lotsFor p.2))
        ++ [("banknifty", bnLotsFor bn)] := by
  simp only [calcNormalizedLots]
  rw [if_pos]
  constructor
  · intro p hp
    have hmem := List.mem_of_mem_filter hp
    have herr : p.2.error = false := by
      have := List.of_mem_filter hp
      simpa using this
    exact hvalid p hmem herr
  · intro h
    exact mul_ne_zero (ne_of_gt h) (by norm_num [bankniftyLotSize])

/-- A zero lot value for any non-error constituent makes the caught
ZeroDivisionError return the empty allocation. -/
theorem calcNormalizedLots_eq_nil_of_zero (cd : List (String × CData))
    (bn : BnData) (p0 : String × CData) (hp0 : p0 ∈ cd)
    (herr : p0.2.error = false)
    (hzero : p0.2.spot_price * p0.2.lot_size = 0) :
    calcNormalizedLots cd bn = [] := by
  simp only [calcNormalizedLots]
  rw [if_neg]
  intro hc
  have hmem : p0 ∈ cd.filter (fun p => !p.2.error) :=
    List.mem_filter.mpr ⟨hp0, by simp [herr]⟩
  exact hc.1 p0 hmem hzero

theorem dget_nl_banknifty (cd : List (String × CData)) (bn : BnData)
    (hvalid : ∀ p ∈ cd, p.2.error = false →
      p.2.spot_price * p.2.lot_size ≠ 0) :
    dget (calcNormalizedLots cd bn) "banknifty" = some (bnLotsFor bn) := by
  rw [calcNormalizedLots_eq_of_valid cd bn hvalid, dget,
    dfind_append_single, if_pos rfl]
  rfl

theorem dget_nl_constituent (cd : List (String × CData)) (bn : BnData)
    (sym : String) (d : CData)
    (hnd : (cd.map Prod.fst).Nodup)
    (hvalid : ∀ p ∈ cd, p.2.error = false →
      p.2.spot_price * p.2.lot_size ≠ 0)
    (hmem : (sym, d) ∈ cd) (herr : d.error = false)
    (hsym : sym ≠ "banknifty") :
    dget (calcNormalizedLots cd bn) sym = some (lotsFor d) := by
  rw [calcNormalizedLots_eq_of_valid cd bn hvalid, dget,
    dfind_append_single, if_neg (fun h => hsym h.symm)]
  have hmemf : (sym, d) ∈ cd.filter (fun p => !p.2.error) :=
    List.mem_filter.mpr ⟨hmem, by simp [herr]⟩
  have hndf := filter_keys_nodup cd (fun p => !p.2.error) hnd
  rw [dfind_map _ (fun p => lotsFor p.2) sym,
    dfind_of_mem_nodup _ sym d hmemf hndf]
  rfl

theorem dget_nl_error (cd : List (String × CData)) (bn : BnData)
    (sym : String) (d : CData)
    (hnd : (cd.map Prod.fst).Nodup)
    (hvalid : ∀ p ∈ cd, p.2.error = false →
      p.2.spot_price * p.2.lot_size ≠ 0)
    (hmem : (sym, d) ∈ cd) (herr : d.error = true)
    (hsym : sym ≠ "banknifty") :
    dget (calcNormalizedLots cd bn) sym = none := by
  rw [calcNormalizedLots_eq_of_valid cd bn hvalid, dget,
    dfind_append_single, if_neg (fun h => hsym h.symm)]
  rw [dfind_map _ (fun p => lotsFor p.2) sym,
    dfind_eq_none_of_not_mem_keys]
  · rfl
  · intro hk
    rcases List.mem_map.mp hk with ⟨q, hq, hq1⟩
    have hqcd := List.mem_of_mem_filter hq
    have hqerr : q.2.error = false := by
      have := List.of_mem_filter hq
      simpa using this
    have : q = (sym, d) :=
      eq_of_mem_nodup_keys cd hnd q (sym, d) hqcd hmem hq1
    rw [this] at hqerr
    rw [herr] at hqerr
    cases hqerr

/-- Every binding the allocation ever holds is at least one lot. -/
theorem one_le_of_dget_nl (cd : List (String × CData)) (bn : BnData)
    (s : String) (n : ℤ)
    (h : dget (calcNormalizedLots cd bn) s = some n) : 1 ≤ n := by
  simp only [calcNormalizedLots] at h
  split at h
  · rw [dget, dfind_append_single] at h
    split at h
    · simp only [Option.map] at h
      cases h
      unfold bnLotsFor
      split
      · exact le_max_left 1 _
      · exact le_refl 1
    · rw [dfind_map _ (fun p => lotsFor p.2) s] at h
      cases hf : dfind (cd.filter (fun p => !p.2.error)) s with
      | none => rw [hf] at h; cases h
      | some q =>
        rw [hf] at h
        simp only [Option.map] at h
        cases h
        exact le_max_left 1 _
  · cases h

/-- keepPos agrees with the plain non-error filter whenever every valid
constituent has a nonzero lot value. -/
theorem filter_keepPos_eq (cd : List (String × CData)) (bn : BnData)
    (hnd : (cd.map Prod.fst).Nodup)
    (hvalid : ∀ p ∈ cd, p.2.error = false →
      p.2.spot_price * p.2.lot_size ≠ 0) :
    cd.filter (keepPos (calcNormalizedLots cd bn))
      = cd.filter (fun p => !p.2.error) := by
  apply List.filter_congr
  intro p hp
  by_cases herr : p.2.error
  · simp [keepPos, herr]
  · have herr' : p.2.error = false := Bool.eq_false_iff.mpr herr
    simp only [keepPos, herr', Bool.not_false, Bool.true_and]
    by_cases hb : p.1 = "banknifty"
    · rw [hb, dget_nl_banknifty cd bn hvalid]
      rfl
    · rw [dget_nl_constituent cd bn p.1 p.2 hnd hvalid hp herr' hb]
      rfl

/-- Closed form of the _calculate_constituents_positions fold. -/
theorem calcConstituentsPositions_eq (cd : List (String × CData))
    (nl : List (String × ℤ)) :
    calcConstituentsPositions cd nl =
      { positions :=
          (cd.filter (keepPos nl)).map (fun p => (p.1, posOf nl p))
        total_premium := ((cd.filter (keepPos nl)).map (premOf nl)).sum } := by
  suffices h : ∀ acc : ConstituentsPositions,
      cd.foldl (fun acc p =>
        if keepPos nl p then
          { positions := acc.positions ++ [(p.1, posOf nl p)]
            total_premium := acc.total_premium + premOf nl p }
        else acc) acc
      = { positions := acc.positions ++
            (cd.filter (keepPos nl)).map (fun p => (p.1, posOf nl p))
          total_premium := acc.total_premium +
            ((cd.filter (keepPos nl)).map (premOf nl)).sum } by
    have := h { positions := [], total_premium := 0 }
    simpa [calcConstituentsPositions] using this
  induction cd with
  | nil => intro acc; simp
  | cons p rest ih =>
    intro acc
    cases hk : keepPos nl p
    · simp [hk, ih, List.filter_cons]
    · simp [hk, ih, List.filter_cons, List.append_assoc, add_assoc]

/-- Closed form of the _calculate_portfolio_value fold. -/
theorem calcPortfolioValue_eq (cd : List (String × CData))
    (nl : List (String × ℤ)) :
    calcPortfolioValue cd nl =
      { total_value := ((cd.filter (keepPos nl)).map (valOf nl)).sum
        breakdown := (cd.filter (keepPos nl)).map (fun p => (p.1, valOf nl p))
        target_value := referencePortfolioValue } := by
  suffices h : ∀ acc : PortfolioValue,
      cd.foldl (fun acc p =>
        if keepPos nl p then
          { total_value := acc.total_value + valOf nl p
            breakdown := acc.breakdown ++ [(p.1, valOf nl p)]
            target_value := acc.target_value }
        else acc) acc
      = { total_value := acc.total_value +
            ((cd.filter (keepPos nl)).map (valOf nl)).sum
          breakdown := acc.breakdown ++
            (cd.filter (keepPos nl)).map (fun p => (p.1, valOf nl p))
          target_value := acc.target_value } by
    have h0 := h (PortfolioValue.mk 0 [] referencePortfolioValue)
    simpa [calcPortfolioValue] using h0
  induction cd with
  | nil => intro acc; simp
  | cons p rest ih =>
    intro acc
    cases hk : keepPos nl p
    · simp [hk, ih, List.filter_cons]
    · simp [hk, ih, List.filter_cons, List.append_assoc, add_assoc]

/-- The keys of a key-preserving map are the keys of the base list. -/
theorem keys_map_pair {κ α β : Type} (l : List (κ × α)) (g : κ × α → β) :
    (l.map (fun p => (p.1, g p))).map Prod.fst = l.map Prod.fst := by
  simp [List.map_map, Function.comp_def]

/-- The keys of a list tabulated from its own elements. -/
theorem keys_map_self {κ α : Type} (l : List κ) (f : κ → α) :
    (l.map (fun x => (x, f x))).map Prod.fst = l := by
  simp [List.map_map, Function.comp_def]

theorem dget_map_self {κ α : Type} [DecidableEq κ]
    (l : List κ) (f : κ → α) (k : κ) (hk : k ∈ l) (hnd : l.Nodup) :
    dget (l.map (fun x => (x, f x))) k = some (f k) := by
  apply dget_of_mem_nodup
  · exact List.mem_map_of_mem (fun x => (x, f x)) hk
  · rw [keys_map_self]
    exact hnd

/-- An error-tagged symbol is absent from the keys of the non-error
filter (keys unique as in a Python dict). -/
theorem not_mem_filter_keys_of_error (cd : List (String × CData))
    (hnd : (cd.map Prod.fst).Nodup) (sym : String) (d : CData)
    (hmem : (sym, d) ∈ cd) (herr : d.error = true)
    (q : String × CData → Bool)
    (hq : ∀ p, q p = true → p.2.error = false) :
    sym ∉ (cd.filter q).map Prod.fst := by
  intro hk
  rcases List.mem_map.mp hk with ⟨p, hp, hp1⟩
  have hpcd := List.mem_of_mem_filter hp
  have hperr : p.2.error = false := hq p (List.of_mem_filter hp)
  have : p = (sym, d) :=
    eq_of_mem_nodup_keys cd hnd p (sym, d) hpcd hmem hp1
  rw [this, herr] at hperr
  cases hperr

/-- The snapshot calculate_dispersion_premium returns when both legs are
present and every valid constituent has a nonzero lot value. -/
theorem calculate_dispersion_premium_eq (md : MarketData) (bn : BnData)
    (hbn : md.banknifty = some bn)
    (hne : md.constituents ≠ [])
    (hvalid : ∀ p ∈ md.constituents, p.2.error = false →
      p.2.spot_price * p.2.lot_size ≠ 0) :
    calculate_dispersion_premium md = some
      { net_premium := calcBankniftyPosition bn (bnLotsFor bn) -
          (calcConstituentsPositions md.constituents
            (calcNormalizedLots md.constituents bn)).total_premium
        banknifty_premium := calcBankniftyPosition bn (bnLotsFor bn)
        banknifty_lots := bnLotsFor bn
        banknifty_strike := bn.atm_strike
        banknifty_straddle := bn.straddle_premium
        banknifty_spot := bn.spot_price
        constituents_positions := calcConstituentsPositions md.constituents
          (calcNormalizedLots md.constituents bn)
        normalized_lots := calcNormalizedLots md.constituents bn
        portfolio_value := calcPortfolioValue md.constituents
          (calcNormalizedLots md.constituents bn)
        timestamp := md.timestamp } := by
  have hnlbn := dget_nl_banknifty md.constituents bn hvalid
  have hie : md.constituents.isEmpty = false := by
    cases hmd : md.constituents with
    | nil => exact absurd hmd hne
    | cons a l => rfl
  unfold calculate_dispersion_premium
  rw [hbn, hie]
  simp only [Bool.false_eq_true, if_false]
  rw [hnlbn]

/-! ### Claim theorems -/

/-- Claim C1: for every constituent with a valid quote the allocation
equals max(1, round((referencePortfolio * weight/100) / (spot * lotSize)))
and the index lots equal max(1, round(referencePortfolio / (indexSpot *
indexLotSize))); with index spot 45000, lot size 15 and reference
60000000 the index lots are 89; a constituent with spot 1650, lot size
550 and weight 28.61 gets 19 lots; and no allocated instrument ever
receives fewer than 1 lot. -/
theorem C1_normalized_lots (cd : List (String × CData)) (bn : BnData)
    (sym : String) (d : CData)
    (hnd : (cd.map Prod.fst).Nodup)
    (hvalid : ∀ p ∈ cd, p.2.error = false →
      p.2.spot_price * p.2.lot_size ≠ 0)
    (hmem : (sym, d) ∈ cd) (herr : d.error = false)
    (hsym : sym ≠ "banknifty") (hspot : 0 < bn.spot_price) :
    dget (calcNormalizedLots cd bn) sym
      = some (max 1 (pyRound ((referencePortfolioValue * (d.weight / 100)) /
          (d.spot_price * d.lot_size)))) ∧
    dget (calcNormalizedLots cd bn) "banknifty"
      = some (max 1 (pyRound (referencePortfolioValue /
          (bn.spot_price * bankniftyLotSize)))) ∧
    (∀ (cd' : List (String × CData)) (bn' : BnData) (s : String) (n : ℤ),
      dget (calcNormalizedLots cd' bn') s = some n → 1 ≤ n) ∧
    max 1 (pyRound (referencePortfolioValue / (45000 * bankniftyLotSize)))
      = 89 ∧
    max 1 (pyRound ((referencePortfolioValue * ((2861 / 100) / 100)) /
      (1650 * 550))) = 19 := by
  refine ⟨?_, ?_, ?_, ?_, ?_⟩
  · exact dget_nl_constituent cd bn sym d hnd hvalid hmem herr hsym
  · rw [dget_nl_banknifty cd bn hvalid]
    simp [bnLotsFor, hspot]
  · exact fun cd' bn' s n h => one_le_of_dget_nl cd' bn' s n h
  · have h1 : (referencePortfolioValue / (45000 * bankniftyLotSize)).num
        = 800 := by
      norm_num [referencePortfolioValue, bankniftyLotSize]
    have h2 : (referencePortfolioValue / (45000 * bankniftyLotSize)).den
        = 9 := by
      norm_num [referencePortfolioValue, bankniftyLotSize]
    simp only [pyRound, h1, h2]
    decide
  · have h1 : ((referencePortfolioValue * ((2861 / 100) / 100)) /
        (1650 * 550) : ℚ).num = 11444 := by
      norm_num [referencePortfolioValue]
    have h2 : ((referencePortfolioValue * ((2861 / 100) / 100)) /
        (1650 * 550) : ℚ).den = 605 := by
      norm_num [referencePortfolioValue]
    simp only [pyRound, h1, h2]
    decide

/-- Witness for C1 at the worked example of the spec: one valid
constituent (spot 1650, lot size 550, weight 28.61) and the index at spot
45000. -/
theorem C1_normalized_lots_witness :
    dget (calcNormalizedLots
        [("HDFCBANK", CData.mk false 1650 1650 0 0 60 (2861 / 100) 550)]
        (BnData.mk 45000 45000 0 0 800)) "HDFCBANK"
      = some (max 1 (pyRound ((referencePortfolioValue *
          ((2861 / 100) / 100)) / (1650 * 550)))) ∧
    dget (calcNormalizedLots
        [("HDFCBANK", CData.mk false 1650 1650 0 0 60 (2861 / 100) 550)]
        (BnData.mk 45000 45000 0 0 800)) "banknifty"
      = some (max 1 (pyRound (referencePortfolioValue /
          (45000 * bankniftyLotSize)))) ∧
    (∀ (cd' : List (String × CData)) (bn' : BnData) (s : String) (n : ℤ),
      dget (calcNormalizedLots cd' bn') s = some n → 1 ≤ n) ∧
    max 1 (pyRound (referencePortfolioValue / (45000 * bankniftyLotSize)))
      = 89 ∧
    max 1 (pyRound ((referencePortfolioValue * ((2861 / 100) / 100)) /
      (1650 * 550))) = 19 :=
  C1_normalized_lots
    [("HDFCBANK", CData.mk false 1650 1650 0 0 60 (2861 / 100) 550)]
    (BnData.mk 45000 45000 0 0 800)
    "HDFCBANK" (CData.mk false 1650 1650 0 0 60 (2861 / 100) 550)
    (by simp)
    (by
      intro p hp herr
      simp only [List.mem_singleton] at hp
      subst hp
      norm_num)
    (by simp)
    rfl
    (by decide)
    (by norm_num)

/-- Claim C2: for every snapshot with a non-empty index leg and non-empty
constituent map the net premium is indexStraddle * indexLotSize *
indexLots minus the sum over non-error constituents of straddle * lotSize
* lots, and the reported portfolio value is the sum over non-error
constituents of spot * lotSize * lots, against the reference target. -/
theorem C2_dispersion_premium (md : MarketData) (bn : BnData)
    (hbn : md.banknifty = some bn)
    (hne : md.constituents ≠ [])
    (hnd : (md.constituents.map Prod.fst).Nodup)
    (hvalid : ∀ p ∈ md.constituents, p.2.error = false →
      p.2.spot_price * p.2.lot_size ≠ 0) :
    ∃ r, calculate_dispersion_premium md = some r ∧
      r.banknifty_lots = bnLotsFor bn ∧
      r.normalized_lots = calcNormalizedLots md.constituents bn ∧
      r.net_premium
        = bn.straddle_premium * bankniftyLotSize * ((bnLotsFor bn : ℤ) : ℚ)
          - ((md.constituents.filter (fun p => !p.2.error)).map
              (premOf r.normalized_lots)).sum ∧
      r.portfolio_value.total_value
        = ((md.constituents.filter (fun p => !p.2.error)).map
            (valOf r.normalized_lots)).sum ∧
      r.portfolio_value.target_value = referencePortfolioValue := by
  have hnlbn := dget_nl_banknifty md.constituents bn hvalid
  have hie : md.constituents.isEmpty = false := by
    cases hmd : md.constituents with
    | nil => exact absurd hmd hne
    | cons a l => rfl
  unfold calculate_dispersion_premium
  rw [hbn, hie]
  simp only [Bool.false_eq_true, if_false]
  rw [hnlbn]
  refine ⟨_, rfl, rfl, rfl, ?_, ?_, ?_⟩
  · simp only [calcBankniftyPosition, calcConstituentsPositions_eq,
      filter_keepPos_eq md.constituents bn hnd hvalid]
  · simp only [calcPortfolioValue_eq,
      filter_keepPos_eq md.constituents bn hnd hvalid]
  · simp only [calcPortfolioValue_eq]

/-- Witness for C2: index at spot 45000 with straddle 800 and one valid
constituent at spot 1650, lot size 550, straddle 60. -/
theorem C2_dispersion_premium_witness :
    ∃ r, calculate_dispersion_premium
        (MarketData.mk (some (BnData.mk 45000 45000 0 0 800))
          [("HDFCBANK", CData.mk false 1650 1650 0 0 60 (2861 / 100) 550)]
          0) = some r ∧
      r.banknifty_lots = bnLotsFor (BnData.mk 45000 45000 0 0 800) ∧
      r.normalized_lots = calcNormalizedLots
        [("HDFCBANK", CData.mk false 1650 1650 0 0 60 (2861 / 100) 550)]
        (BnData.mk 45000 45000 0 0 800) ∧
      r.net_premium
        = 800 * bankniftyLotSize *
            ((bnLotsFor (BnData.mk 45000 45000 0 0 800) : ℤ) : ℚ)
          - (([("HDFCBANK",
                CData.mk false 1650 1650 0 0 60 (2861 / 100) 550)].filter
              (fun p => !p.2.error)).map (premOf r.normalized_lots)).sum ∧
      r.portfolio_value.total_value
        = (([("HDFCBANK",
              CData.mk false 1650 1650 0 0 60 (2861 / 100) 550)].filter
            (fun p => !p.2.error)).map (valOf r.normalized_lots)).sum ∧
      r.portfolio_value.target_value = referencePortfolioValue :=
  C2_dispersion_premium
    (MarketData.mk (some (BnData.mk 45000 45000 0 0 800))
      [("HDFCBANK", CData.mk false 1650 1650 0 0 60 (2861 / 100) 550)] 0)
    (BnData.mk 45000 45000 0 0 800)
    rfl
    (by simp)
    (by simp)
    (by
      intro p hp herr
      simp only [List.mem_singleton] at hp
      subst hp
      norm_num)

/-- Claim C10: the aggregates the calculator returns are internally
consistent: total_premium is the sum of the premium fields of the
individual positions, and total_value is the sum of the breakdown
values. -/
theorem C10_aggregates_consistent (cd : List (String × CData))
    (nl : List (String × ℤ)) :
    (calcConstituentsPositions cd nl).total_premium
      = ((calcConstituentsPositions cd nl).positions.map
          (fun q => q.2.premium)).sum ∧
    (calcPortfolioValue cd nl).total_value
      = ((calcPortfolioValue cd nl).breakdown.map (fun q => q.2)).sum := by
  rw [calcConstituentsPositions_eq, calcPortfolioValue_eq]
  constructor
  · simp [List.map_map, Function.comp_def, posOf]
  · simp [List.map_map, Function.comp_def]

/-- Claim C3, evaluated at the failing input: a non-error constituent
with zero spot price (weight 3.11, lot size 10000) next to a perfectly
valid constituent.  The division by zero in the lots loop is caught and
the whole allocation comes back empty, so the valid constituent receives
no allocation entry and the dispersion computation itself raises, where
the claim promises the zero-price entry alone is excluded. -/
theorem C3_zero_price_aborts_allocation :
    calcNormalizedLots
        [("IDFCFIRSTB", CData.mk false 0 0 0 0 0 (311 / 100) 10000),
         ("HDFCBANK", CData.mk false 1650 1650 0 0 60 (2861 / 100) 550)]
        (BnData.mk 45000 45000 0 0 800) = [] ∧
    dget (calcNormalizedLots
        [("IDFCFIRSTB", CData.mk false 0 0 0 0 0 (311 / 100) 10000),
         ("HDFCBANK", CData.mk false 1650 1650 0 0 60 (2861 / 100) 550)]
        (BnData.mk 45000 45000 0 0 800)) "HDFCBANK" = none ∧
    calculate_dispersion_premium
        (MarketData.mk (some (BnData.mk 45000 45000 0 0 800))
          [("IDFCFIRSTB", CData.mk false 0 0 0 0 0 (311 / 100) 10000),
           ("HDFCBANK", CData.mk false 1650 1650 0 0 60 (2861 / 100) 550)]
          0)
      = none := by
  have hnil : calcNormalizedLots
      [("IDFCFIRSTB", CData.mk false 0 0 0 0 0 (311 / 100) 10000),
       ("HDFCBANK", CData.mk false 1650 1650 0 0 60 (2861 / 100) 550)]
      (BnData.mk 45000 45000 0 0 800) = [] := by
    apply calcNormalizedLots_eq_nil_of_zero _ _
      ("IDFCFIRSTB", CData.mk false 0 0 0 0 0 (311 / 100) 10000)
    · simp
    · rfl
    · norm_num
  refine ⟨hnil, ?_, ?_⟩
  · rw [hnil]
    rfl
  · simp only [calculate_dispersion_premium]
    rw [hnil]
    rfl

/-- Claim C5: a snapshot missing both legs raises; with both legs present
error-tagged constituents are excluded from the allocation, the position
legs and the portfolio breakdown without raising, and every non-error
constituent still gets its position. -/
theorem C5_error_tagged_excluded (ts : ℚ) (md : MarketData) (bn : BnData)
    (hbn : md.banknifty = some bn)
    (hne : md.constituents ≠ [])
    (hnd : (md.constituents.map Prod.fst).Nodup)
    (hvalid : ∀ p ∈ md.constituents, p.2.error = false →
      p.2.spot_price * p.2.lot_size ≠ 0)
    (hsome : ∃ p ∈ md.constituents, p.2.error = true) :
    calculate_dispersion_premium (MarketData.mk none [] ts) = none ∧
    ∃ r, calculate_dispersion_premium md = some r ∧
      (∀ sym d, (sym, d) ∈ md.constituents → d.error = true →
        dget r.constituents_positions.positions sym = none ∧
        dget r.portfolio_value.breakdown sym = none ∧
        (sym ≠ "banknifty" → dget r.normalized_lots sym = none)) ∧
      (∀ sym d, (sym, d) ∈ md.constituents → d.error = false →
        ∃ pos, dget r.constituents_positions.positions sym = some pos) := by
  obtain ⟨-, -⟩ := hsome
  refine ⟨rfl, ?_⟩
  rw [calculate_dispersion_premium_eq md bn hbn hne hvalid]
  refine ⟨_, rfl, ?_, ?_⟩
  · intro sym d hmem herr
    have hnotmem := not_mem_filter_keys_of_error md.constituents hnd sym d
      hmem herr (keepPos (calcNormalizedLots md.constituents bn))
      (fun p hp => by
        simp only [keepPos, Bool.and_eq_true, Bool.not_eq_eq_eq_not,
          Bool.not_true] at hp
        exact hp.1)
    refine ⟨?_, ?_, ?_⟩
    · simp only [calcConstituentsPositions_eq]
      apply dget_eq_none_of_not_mem_keys
      rw [keys_map_pair]
      exact hnotmem
    · simp only [calcPortfolioValue_eq]
      apply dget_eq_none_of_not_mem_keys
      rw [keys_map_pair]
      exact hnotmem
    · intro hsym
      exact dget_nl_error md.constituents bn sym d hnd hvalid hmem herr hsym
  · intro sym d hmem herr
    have hkp : keepPos (calcNormalizedLots md.constituents bn) (sym, d)
        = true := by
      simp only [keepPos, herr, Bool.not_false, Bool.true_and]
      by_cases hb : sym = "banknifty"
      · rw [hb]
        show (dget (calcNormalizedLots md.constituents bn) "banknifty").isSome
          = true
        rw [dget_nl_banknifty md.constituents bn hvalid]
        rfl
      · show (dget (calcNormalizedLots md.constituents bn) sym).isSome = true
        rw [dget_nl_constituent md.constituents bn sym d hnd hvalid hmem
          herr hb]
        rfl
    have hmemf : (sym, d) ∈ md.constituents.filter
        (keepPos (calcNormalizedLots md.constituents bn)) :=
      List.mem_filter.mpr ⟨hmem, hkp⟩
    have hndf := filter_keys_nodup md.constituents
      (keepPos (calcNormalizedLots md.constituents bn)) hnd
    refine ⟨posOf (calcNormalizedLots md.constituents bn) (sym, d), ?_⟩
    simp only [calcConstituentsPositions_eq]
    rw [dget, dfind_map _
      (fun p => posOf (calcNormalizedLots md.constituents bn) p) sym,
      dfind_of_mem_nodup _ sym d hmemf hndf]
    rfl

/-- Witness for C5: the index with one valid constituent and one
error-tagged constituent. -/
theorem C5_error_tagged_excluded_witness :
    calculate_dispersion_premium (MarketData.mk none [] 7) = none ∧
    ∃ r, calculate_dispersion_premium
        (MarketData.mk (some (BnData.mk 45000 45000 0 0 800))
          [("HDFCBANK", CData.mk false 1650 1650 0 0 60 (2861 / 100) 550),
           ("SBIN", CData.mk true 0 0 0 0 0 (911 / 100) 1500)]
          7) = some r ∧
      (∀ sym d, (sym, d) ∈
          [("HDFCBANK", CData.mk false 1650 1650 0 0 60 (2861 / 100) 550),
           ("SBIN", CData.mk true 0 0 0 0 0 (911 / 100) 1500)] →
        d.error = true →
        dget r.constituents_positions.positions sym = none ∧
        dget r.portfolio_value.breakdown sym = none ∧
        (sym ≠ "banknifty" → dget r.normalized_lots sym = none)) ∧
      (∀ sym d, (sym, d) ∈
          [("HDFCBANK", CData.mk false 1650 1650 0 0 60 (2861 / 100) 550),
           ("SBIN", CData.mk true 0 0 0 0 0 (911 / 100) 1500)] →
        d.error = false →
        ∃ pos, dget r.constituents_positions.positions sym = some pos) :=
  C5_error_tagged_excluded 7
    (MarketData.mk (some (BnData.mk 45000 45000 0 0 800))
      [("HDFCBANK", CData.mk false 1650 1650 0 0 60 (2861 / 100) 550),
       ("SBIN", CData.mk true 0 0 0 0 0 (911 / 100) 1500)]
      7)
    (BnData.mk 45000 45000 0 0 800)
    rfl
    (by simp)
    (by simp)
    (by
      intro p hp herr
      rcases List.mem_cons.mp hp with h | h
      · subst h
        norm_num
      · simp only [List.mem_singleton] at h
        subst h
        cases herr)
    ⟨("SBIN", CData.mk true 0 0 0 0 0 (911 / 100) 1500), by simp, rfl⟩

theorem getConstituentsData_keys (tbl : List (String × Instrument))
    (env : FetchEnv) :
    (getConstituentsData tbl env).map Prod.fst = tbl.map Prod.fst := by
  induction tbl with
  | nil => rfl
  | cons t rest ih =>
    simp only [getConstituentsData, List.map_cons] at ih ⊢
    cases h : env.constFetch t.1 with
    | none => simp [h, ih]
    | some q =>
      obtain ⟨s, c, p⟩ := q
      simp [h, ih]

/-- Claim C4 counterexample: the index fetch fails (bnFetch none) while a
stale snapshot sits in the cache; the refresh at time 5 still publishes a
new snapshot with an empty index leg, replacing the prior cache value,
and nothing is raised. -/
theorem C4_index_failure_counterexample :
    (get_live_market_data
        [("HDFCBANK", Instrument.mk (2861 / 100) 550)]
        (FetchEnv.mk none (fun _ => some (1650, 30, 30)))
        (CacheState.mk (some (MarketData.mk
          (some (BnData.mk 45000 45000 0 0 800)) [] 0, 0)))
        5 true).2.snapshot
      = some ((get_live_market_data
          [("HDFCBANK", Instrument.mk (2861 / 100) 550)]
          (FetchEnv.mk none (fun _ => some (1650, 30, 30)))
          (CacheState.mk (some (MarketData.mk
            (some (BnData.mk 45000 45000 0 0 800)) [] 0, 0)))
          5 true).1, 5) ∧
    (get_live_market_data
        [("HDFCBANK", Instrument.mk (2861 / 100) 550)]
        (FetchEnv.mk none (fun _ => some (1650, 30, 30)))
        (CacheState.mk (some (MarketData.mk
          (some (BnData.mk 45000 45000 0 0 800)) [] 0, 0)))
        5 true).1.banknifty = none ∧
    (get_live_market_data
        [("HDFCBANK", Instrument.mk (2861 / 100) 550)]
        (FetchEnv.mk none (fun _ => some (1650, 30, 30)))
        (CacheState.mk (some (MarketData.mk
          (some (BnData.mk 45000 45000 0 0 800)) [] 0, 0)))
        5 true).1
      ≠ MarketData.mk (some (BnData.mk 45000 45000 0 0 800)) [] 0 := by
  have hmiss : cacheGet
      (CacheState.mk (some (MarketData.mk
        (some (BnData.mk 45000 45000 0 0 800)) [] 0, 0)))
      5 cacheDuration = none := by
    simp only [cacheGet, cacheDuration]
    norm_num
  simp only [get_live_market_data, hmiss]
  refine ⟨rfl, rfl, ?_⟩
  intro h
  have hb := congrArg MarketData.banknifty h
  simp [buildSnapshot, getBankniftyData] at hb

/-- Claim C4 amended: when the index fetch fails on a cache miss, the
refresh swallows the error, builds a snapshot whose index leg is the
empty dict, still publishes it to the cache and returns it without
raising; the DataIncomplete-class error surfaces only downstream when the
calculator receives that snapshot. -/
theorem C4_index_failure_publishes (tbl : List (String × Instrument))
    (env : FetchEnv) (c : CacheState) (now : ℚ)
    (hfail : env.bnFetch = none)
    (hmiss : cacheGet c now cacheDuration = none) :
    (get_live_market_data tbl env c now true).1.banknifty = none ∧
    (get_live_market_data tbl env c now true).2.snapshot
      = some ((get_live_market_data tbl env c now true).1, now) ∧
    calculate_dispersion_premium
        (get_live_market_data tbl env c now true).1 = none := by
  simp only [get_live_market_data, hmiss, ite_self]
  refine ⟨?_, rfl, ?_⟩
  · simp [buildSnapshot, getBankniftyData, hfail]
  · simp only [calculate_dispersion_premium, buildSnapshot,
      getBankniftyData, hfail]

/-- Witness for the amended C4 at a concrete failing index fetch over an
empty cache. -/
theorem C4_index_failure_publishes_witness :
    (get_live_market_data
        [("HDFCBANK", Instrument.mk (2861 / 100) 550)]
        (FetchEnv.mk none (fun _ => some (1650, 30, 30)))
        (CacheState.mk none) 0 true).1.banknifty = none ∧
    (get_live_market_data
        [("HDFCBANK", Instrument.mk (2861 / 100) 550)]
        (FetchEnv.mk none (fun _ => some (1650, 30, 30)))
        (CacheState.mk none) 0 true).2.snapshot
      = some ((get_live_market_data
          [("HDFCBANK", Instrument.mk (2861 / 100) 550)]
          (FetchEnv.mk none (fun _ => some (1650, 30, 30)))
          (CacheState.mk none) 0 true).1, 0) ∧
    calculate_dispersion_premium
        (get_live_market_data
          [("HDFCBANK", Instrument.mk (2861 / 100) 550)]
          (FetchEnv.mk none (fun _ => some (1650, 30, 30)))
          (CacheState.mk none) 0 true).1 = none :=
  C4_index_failure_publishes
    [("HDFCBANK", Instrument.mk (2861 / 100) 550)]
    (FetchEnv.mk none (fun _ => some (1650, 30, 30)))
    (CacheState.mk none) 0 rfl rfl

/-- Claim C7: a cached read returns the stored snapshot exactly when its
age is below maxAge; with TTL 2 a snapshot stored at time 0 is returned
at time 1 and missed at time 3, the miss triggering a fresh fetch. -/
theorem C7_cache_ttl (md0 : MarketData) (t t0 maxAge : ℚ)
    (tbl : List (String × Instrument)) (env : FetchEnv) :
    (cacheGet (CacheState.mk (some (md0, t0))) t maxAge = some md0
      ↔ t - t0 < maxAge) ∧
    cacheGet (CacheState.mk (some (md0, 0))) 1 cacheDuration = some md0 ∧
    cacheGet (CacheState.mk (some (md0, 0))) 3 cacheDuration = none ∧
    get_live_market_data_cached tbl env (CacheState.mk (some (md0, 0))) 3
      = (buildSnapshot tbl env 3, CacheState.mk (some (md0, 0))) := by
  have h1 : (1 : ℚ) - 0 < cacheDuration := by norm_num [cacheDuration]
  have h3 : ¬((3 : ℚ) - 0 < cacheDuration) := by norm_num [cacheDuration]
  have hm3 : cacheGet (CacheState.mk (some (md0, 0))) 3 cacheDuration
      = none := by
    simp only [cacheGet, if_neg h3]
  refine ⟨?_, ?_, hm3, ?_⟩
  · constructor
    · intro h
      by_contra hcon
      simp only [cacheGet, if_neg hcon] at h
      cases h
    · intro h
      simp only [cacheGet, if_pos h]
  · simp only [cacheGet, if_pos h1]
  · simp [get_live_market_data_cached, hm3, get_live_market_data]

/-- Claim C8: a cache miss under use_cache runs a synchronous full
refresh of the index and every constituent of the table, publishes the
snapshot, returns that same snapshot, and a cached read within the TTL
then observes it. -/
theorem C8_cache_miss_refresh (tbl : List (String × Instrument))
    (env : FetchEnv) (c : CacheState) (now : ℚ)
    (hmiss : cacheGet c now cacheDuration = none) :
    (get_live_market_data tbl env c now true).1
      = buildSnapshot tbl env now ∧
    (get_live_market_data tbl env c now true).1.constituents.map Prod.fst
      = tbl.map Prod.fst ∧
    (get_live_market_data tbl env c now true).2.snapshot
      = some ((get_live_market_data tbl env c now true).1, now) ∧
    (∀ t' : ℚ, t' - now < cacheDuration →
      cacheGet (get_live_market_data tbl env c now true).2 t' cacheDuration
        = some (get_live_market_data tbl env c now true).1 ∧
      get_live_market_data_cached tbl env
          (get_live_market_data tbl env c now true).2 t'
        = ((get_live_market_data tbl env c now true).1,
            (get_live_market_data tbl env c now true).2)) := by
  simp only [get_live_market_data, hmiss]
  refine ⟨rfl, ?_, rfl, ?_⟩
  · simp only [buildSnapshot]
    exact getConstituentsData_keys tbl env
  · intro t' ht'
    constructor
    · simp [cacheGet, ht']
    · simp [get_live_market_data_cached, cacheGet, ht']

/-- Witness for C8 at an empty cache and a successful fetch
environment. -/
theorem C8_cache_miss_refresh_witness :
    (get_live_market_data
        [("HDFCBANK", Instrument.mk (2861 / 100) 550)]
        (FetchEnv.mk (some (45000, 400, 400))
          (fun _ => some (1650, 30, 30)))
        (CacheState.mk none) 0 true).1
      = buildSnapshot
          [("HDFCBANK", Instrument.mk (2861 / 100) 550)]
          (FetchEnv.mk (some (45000, 400, 400))
            (fun _ => some (1650, 30, 30))) 0 ∧
    (get_live_market_data
        [("HDFCBANK", Instrument.mk (2861 / 100) 550)]
        (FetchEnv.mk (some (45000, 400, 400))
          (fun _ => some (1650, 30, 30)))
        (CacheState.mk none) 0 true).1.constituents.map Prod.fst
      = [("HDFCBANK", Instrument.mk (2861 / 100) 550)].map Prod.fst ∧
    (get_live_market_data
        [("HDFCBANK", Instrument.mk (2861 / 100) 550)]
        (FetchEnv.mk (some (45000, 400, 400))
          (fun _ => some (1650, 30, 30)))
        (CacheState.mk none) 0 true).2.snapshot
      = some ((get_live_market_data
          [("HDFCBANK", Instrument.mk (2861 / 100) 550)]
          (FetchEnv.mk (some (45000, 400, 400))
            (fun _ => some (1650, 30, 30)))
          (CacheState.mk none) 0 true).1, 0) ∧
    (∀ t' : ℚ, t' - 0 < cacheDuration →
      cacheGet (get_live_market_data
          [("HDFCBANK", Instrument.mk (2861 / 100) 550)]
          (FetchEnv.mk (some (45000, 400, 400))
            (fun _ => some (1650, 30, 30)))
          (CacheState.mk none) 0 true).2 t' cacheDuration
        = some (get_live_market_data
            [("HDFCBANK", Instrument.mk (2861 / 100) 550)]
            (FetchEnv.mk (some (45000, 400, 400))
              (fun _ => some (1650, 30, 30)))
            (CacheState.mk none) 0 true).1 ∧
      get_live_market_data_cached
          [("HDFCBANK", Instrument.mk (2861 / 100) 550)]
          (FetchEnv.mk (some (45000, 400, 400))
            (fun _ => some (1650, 30, 30)))
          (get_live_market_data
            [("HDFCBANK", Instrument.mk (2861 / 100) 550)]
            (FetchEnv.mk (some (45000, 400, 400))
              (fun _ => some (1650, 30, 30)))
            (CacheState.mk none) 0 true).2 t'
        = ((get_live_market_data
            [("HDFCBANK", Instrument.mk (2861 / 100) 550)]
            (FetchEnv.mk (some (45000, 400, 400))
              (fun _ => some (1650, 30, 30)))
            (CacheState.mk none) 0 true).1,
           (get_live_market_data
            [("HDFCBANK", Instrument.mk (2861 / 100) 550)]
            (FetchEnv.mk (some (45000, 400, 400))
              (fun _ => some (1650, 30, 30)))
            (CacheState.mk none) 0 true).2)) :=
  C8_cache_miss_refresh
    [("HDFCBANK", Instrument.mk (2861 / 100) 550)]
    (FetchEnv.mk (some (45000, 400, 400)) (fun _ => some (1650, 30, 30)))
    (CacheState.mk none) 0 rfl

/-- Claim C6: for each OTM level L in 1..3 the call strike is the ATM
strike plus L times the interval and the put strike the ATM strike minus
it, with interval 100 for the index and 50 for constituents; levels are
computed independently from the original snapshot and the result maps
each level to its own dispersion result. -/
theorem C6_otm_strikes (md : MarketData)
    (prem : String → ℚ → String → ℕ → ℚ) (L : ℕ)
    (hL : 1 ≤ L ∧ L ≤ 3) :
    (∀ bn : BnData, md.banknifty = some bn → 0 < bn.spot_price →
      ∃ obn, (getOtmMarketData md prem L).banknifty = some obn ∧
        obn.atm_strike = calcAtmStrike bn.spot_price ∧
        obn.call_strike = calcAtmStrike bn.spot_price + (L : ℚ) * 100 ∧
        obn.put_strike = calcAtmStrike bn.spot_price - (L : ℚ) * 100) ∧
    (∀ (sym : String) (d : CData),
      (md.constituents.map Prod.fst).Nodup →
      (sym, d) ∈ md.constituents → d.error = false → 0 < d.spot_price →
      ∃ od, dget (getOtmMarketData md prem L).constituents sym = some od ∧
        od.atm_strike = calcAtmStrike d.spot_price ∧
        od.call_strike = calcAtmStrike d.spot_price + (L : ℚ) * 50 ∧
        od.put_strike = calcAtmStrike d.spot_price - (L : ℚ) * 50) ∧
    (∀ N : ℤ, (L : ℤ) ≤ N →
      dget (calculate_otm_dispersion md prem N) L
        = some (calcOtmLevelDispersion (getOtmMarketData md prem L) L)) := by
  refine ⟨?_, ?_, ?_⟩
  · intro bn hbn hspot
    simp only [getOtmMarketData, hbn, if_pos hspot]
    exact ⟨_, rfl, rfl, rfl, rfl⟩
  · intro sym d hnd hmem herr hspot
    simp only [getOtmMarketData]
    have hq : (!d.error && decide (0 < d.spot_price)) = true := by
      simp [herr, hspot]
    exact ⟨_, dget_filter_map md.constituents _ _ sym d hmem hq hnd,
      rfl, rfl, rfl⟩
  · intro N hLN
    simp only [calculate_otm_dispersion]
    have hmem : L ∈ List.range' 1 N.toNat :=
      List.mem_range'_1.mpr ⟨hL.1, by omega⟩
    exact dget_map_self _ _ L hmem (List.nodup_range' _ _)

/-- Witness for C6 at level 2 over a one-constituent snapshot with a
constant premium environment. -/
theorem C6_otm_strikes_witness :
    (∀ bn : BnData,
      (MarketData.mk (some (BnData.mk 45000 45000 0 0 800))
        [("HDFCBANK", CData.mk false 1650 1650 0 0 60 (2861 / 100) 550)]
        0).banknifty = some bn → 0 < bn.spot_price →
      ∃ obn, (getOtmMarketData
          (MarketData.mk (some (BnData.mk 45000 45000 0 0 800))
            [("HDFCBANK",
              CData.mk false 1650 1650 0 0 60 (2861 / 100) 550)] 0)
          (fun _ _ _ _ => 10) 2).banknifty = some obn ∧
        obn.atm_strike = calcAtmStrike bn.spot_price ∧
        obn.call_strike = calcAtmStrike bn.spot_price + (2 : ℚ) * 100 ∧
        obn.put_strike = calcAtmStrike bn.spot_price - (2 : ℚ) * 100) ∧
    (∀ (sym : String) (d : CData),
      ((MarketData.mk (some (BnData.mk 45000 45000 0 0 800))
        [("HDFCBANK", CData.mk false 1650 1650 0 0 60 (2861 / 100) 550)]
        0).constituents.map Prod.fst).Nodup →
      (sym, d) ∈ (MarketData.mk (some (BnData.mk 45000 45000 0 0 800))
        [("HDFCBANK", CData.mk false 1650 1650 0 0 60 (2861 / 100) 550)]
        0).constituents → d.error = false → 0 < d.spot_price →
      ∃ od, dget (getOtmMarketData
          (MarketData.mk (some (BnData.mk 45000 45000 0 0 800))
            [("HDFCBANK",
              CData.mk false 1650 1650 0 0 60 (2861 / 100) 550)] 0)
          (fun _ _ _ _ => 10) 2).constituents sym = some od ∧
        od.atm_strike = calcAtmStrike d.spot_price ∧
        od.call_strike = calcAtmStrike d.spot_price + (2 : ℚ) * 50 ∧
        od.put_strike = calcAtmStrike d.spot_price - (2 : ℚ) * 50) ∧
    (∀ N : ℤ, (2 : ℤ) ≤ N →
      dget (calculate_otm_dispersion
          (MarketData.mk (some (BnData.mk 45000 45000 0 0 800))
            [("HDFCBANK",
              CData.mk false 1650 1650 0 0 60 (2861 / 100) 550)] 0)
          (fun _ _ _ _ => 10) N) 2
        = some (calcOtmLevelDispersion (getOtmMarketData
            (MarketData.mk (some (BnData.mk 45000 45000 0 0 800))
              [("HDFCBANK",
                CData.mk false 1650 1650 0 0 60 (2861 / 100) 550)] 0)
            (fun _ _ _ _ => 10) 2) 2)) :=
  C6_otm_strikes
    (MarketData.mk (some (BnData.mk 45000 45000 0 0 800))
      [("HDFCBANK", CData.mk false 1650 1650 0 0 60 (2861 / 100) 550)] 0)
    (fun _ _ _ _ => 10) 2 (by decide)

/-- Claim C9: the otm-levels boundary clamps the requested level count to
min(N, 3) with default 1, and the returned result holds exactly the
per-level entries for levels 1 through the clamp; requesting 5 yields
levels 1, 2, 3 only. -/
theorem C9_otm_level_clamp (n : ℤ) (nopt : Option ℤ) (md : MarketData)
    (prem : String → ℚ → String → ℕ → ℚ) :
    clampOtmLevels (some n) = min n 3 ∧
    clampOtmLevels none = 1 ∧
    (calculate_otm_dispersion md prem (clampOtmLevels nopt)).map Prod.fst
      = List.range' 1 ((min (nopt.getD 1) 3).toNat) ∧
    (calculate_otm_dispersion md prem (clampOtmLevels (some 5))).map
        Prod.fst = [1, 2, 3] := by
  have hclamp : ∀ m : Option ℤ, clampOtmLevels m = min (m.getD 1) 3 := by
    intro m
    simp only [clampOtmLevels, min_def]
    split <;> split <;> omega
  refine ⟨hclamp (some n), rfl, ?_, ?_⟩
  · rw [hclamp]
    simp only [calculate_otm_dispersion]
    exact keys_map_self _ _
  · rw [hclamp]
    have h53 : min ((some (5 : ℤ)).getD 1) 3 = 3 := by norm_num
    rw [h53]
    simp only [calculate_otm_dispersion]
    rw [keys_map_self]
    rfl

end Dispersion
